import Mathlib

/-!
Verification of the joystick-to-rpi motor-controller firmware
(`src/Arduino/motor_controller/motor_controller.ino`).

The firmware is a line-oriented serial command parser plus a per-motor
actuator.  We embed it shallowly:

* `ChannelState` models the three control lines of one H-bridge channel
  (two digital direction lines and the value last written to the PWM
  enable line).
* `setMotor` is the pure translation of the C function `setMotor`:
  it ignores the previous line state (the C code writes all three lines
  absolutely).
* `strtokAll` models C `strtok` with delimiter `","`: it skips delimiter
  runs and returns the maximal non-delimiter runs, so it never yields an
  empty token.  It is written with a length fuel so that it is structural
  and computes by `decide`/`rfl`.
* `atoiChars` models C `atoi`: skip `isspace` characters, an optional
  sign, then the value of the longest leading digit run (0 if none).
  Machine-int overflow is not modelled (values are mathematical `Int`).
* `loopStep` is one iteration of `loop` applied to one complete line read
  from serial (already terminated by a newline): trim, check the `"M,"`
  tag, tokenize, and either dispatch a 10-value frame to the six channels
  or emit the fixed error line.  The C loop
  `while (tok != NULL && idx < 10) { tok = strtok(NULL, ","); if (tok) values[idx++] = atoi(tok); }`
  discards the first token (the tag) and then stores at most the next 10
  tokens, so after it `values = (rest.take 10).map atoi` and
  `idx = min rest.length 10`, where `rest` is the token list after the
  tag; `frameValues` and the guard `min (frameTokens raw).length 10 = 10`
  below are exactly that.
-/

namespace MotorController

/-- State of one H-bridge channel: the `plus` and `minus` direction lines
(`true` = HIGH) and the last value written to the PWM `enable` line. -/
structure ChannelState where
  plus : Bool
  minus : Bool
  en : Int
deriving DecidableEq, Repr

/-- The six channels of the firmware: front-left, front-right, rear-left,
rear-right, vertical, and the mirrored vertical channel. -/
structure FirmwareState where
  fl : ChannelState
  fr : ChannelState
  rl : ChannelState
  rr : ChannelState
  v : ChannelState
  v2 : ChannelState
deriving DecidableEq, Repr

/-- Arduino's `constrain(amt, low, high)` macro:
`((amt)<(low)?(low):((amt)>(high)?(high):(amt)))`. -/
def constrain (amt low high : Int) : Int :=
  if amt < low then low else if amt > high then high else amt

/-- The C function `setMotor(plusPin, minusPin, enPin, direction, speed)`.
Pin numbers are identity of the channel, so here the function acts on one
channel's state; the previous state `_ch` is never read because the C code
drives all three lines absolutely. -/
def setMotor (direction speed : Int) (_ch : ChannelState) : ChannelState :=
  if speed ≤ 0 then
    { plus := false, minus := false, en := 0 }
  else if direction = 1 then
    { plus := true, minus := false, en := constrain speed 0 255 }
  else
    { plus := false, minus := true, en := constrain speed 0 255 }

/-- Channel state established by `setup()`: every pin is configured as
output and written LOW (so the enable line carries duty 0). -/
def bootChannel : ChannelState := { plus := false, minus := false, en := 0 }

/-- Firmware state right after `setup()`. -/
def bootState : FirmwareState :=
  { fl := bootChannel, fr := bootChannel, rl := bootChannel,
    rr := bootChannel, v := bootChannel, v2 := bootChannel }

/-- The characters C `isspace` accepts (and Arduino `String::trim`
removes): space and the control characters `\t`, `\n`, `\v`, `\f`, `\r`
(codes 9 to 13). -/
def isCSpace (c : Char) : Bool :=
  c = ' ' || (9 ≤ c.toNat && c.toNat ≤ 13)

/-- Arduino `String::trim()`: remove leading and trailing `isspace`
characters. -/
def arduinoTrim (cs : List Char) : List Char :=
  ((cs.dropWhile isCSpace).reverse.dropWhile isCSpace).reverse

/-- Arduino `line.startsWith("M,")`. -/
def startsWithMComma : List Char → Bool
  | 'M' :: ',' :: _ => true
  | _ => false

/-- Worker for `strtokAll`: fuelled so that the recursion is structural;
`strtokAll` always supplies enough fuel (the length of the list). -/
def strtokGo : Nat → List Char → List (List Char)
  | 0, _ => []
  | _ + 1, [] => []
  | n + 1, c :: rest =>
    if c = ',' then strtokGo n rest
    else (c :: rest.takeWhile (fun d => d ≠ ',')) ::
      strtokGo n (rest.dropWhile (fun d => d ≠ ','))

/-- All tokens C `strtok(buf, ",")` produces (the first call followed by
calls with NULL): the maximal runs of non-comma characters, in order.
Runs of consecutive commas act as a single separator and leading or
trailing commas are skipped, so no empty token is ever produced. -/
def strtokAll (cs : List Char) : List (List Char) :=
  strtokGo cs.length cs

/-- Value of the longest leading digit run, C-`atoi` style:
`digitsVal cs acc` folds digits into `acc` and stops at the first
non-digit. -/
def digitsVal : List Char → Nat → Nat
  | [], acc => acc
  | c :: cs, acc =>
    if c.isDigit then digitsVal cs (10 * acc + (c.toNat - 48)) else acc

/-- C `atoi`: skip `isspace` characters, accept one optional sign, then
read the longest run of digits (yielding 0 when there is none; trailing
garbage is ignored).  Overflow of the C `int` is not modelled. -/
def atoiChars (t : List Char) : Int :=
  let u := t.dropWhile isCSpace
  if u.head? = some '-' then -(digitsVal (u.drop 1) 0 : Int)
  else if u.head? = some '+' then (digitsVal (u.drop 1) 0 : Int)
  else (digitsVal u 0 : Int)

/-- The tokens following the `"M"` tag token on a (raw) line, exactly the
tokens the `while` loop in `loop()` can see: the first `strtok` result is
the tag and is discarded. -/
def frameTokens (raw : List Char) : List (List Char) :=
  (strtokAll (arduinoTrim raw)).drop 1

/-- The integer values the `while` loop stores into `values[0..9]`: the
first 10 post-tag tokens, each through `atoi`. -/
def frameValues (raw : List Char) : List Int :=
  ((frameTokens raw).take 10).map atoiChars

/-- The fixed diagnostic emitted on arity failure. -/
def errorText : String := "Error: Invalid M command format"

/-- The fan-out in `loop()` when `idx == 10`: positions 0..9 are
`FL_dir, FL_spd, FR_dir, FR_spd, RL_dir, RL_spd, RR_dir, RR_spd, V_dir,
V_spd`, and the mirrored vertical channel V2 is driven from the same pair
`(values[8], values[9])` as V. -/
def dispatch (vals : List Int) (st : FirmwareState) : FirmwareState :=
  { fl := setMotor (vals.getD 0 0) (vals.getD 1 0) st.fl,
    fr := setMotor (vals.getD 2 0) (vals.getD 3 0) st.fr,
    rl := setMotor (vals.getD 4 0) (vals.getD 5 0) st.rl,
    rr := setMotor (vals.getD 6 0) (vals.getD 7 0) st.rr,
    v := setMotor (vals.getD 8 0) (vals.getD 9 0) st.v,
    v2 := setMotor (vals.getD 8 0) (vals.getD 9 0) st.v2 }

/-- One iteration of `loop()` applied to one complete serial line `raw`:
trim; ignore the line unless it starts with `"M,"`; tokenize; if the loop
stored exactly 10 values (`idx == 10`, i.e. at least 10 post-tag tokens
exist) dispatch them, otherwise print the error line.  The returned list
is what `Serial.println` emitted during the iteration. -/
def loopStep (raw : List Char) (st : FirmwareState) :
    FirmwareState × List String :=
  if startsWithMComma (arduinoTrim raw) then
    if min (frameTokens raw).length 10 = 10 then
      (dispatch (frameValues raw) st, [])
    else
      (st, [errorText])
  else
    (st, [])

/-- Channel states reachable by the firmware: the `setup()` state, closed
under `setMotor` with arbitrary arguments. -/
inductive Reachable : ChannelState → Prop
  | boot : Reachable bootChannel
  | step (direction speed : Int) (ch : ChannelState) :
      Reachable ch → Reachable (setMotor direction speed ch)

/-- Electrical stop: both direction lines low, enable at zero. -/
def isStopped (ch : ChannelState) : Prop :=
  ch.plus = false ∧ ch.minus = false ∧ ch.en = 0

/-- Driving forward: `plus` HIGH, `minus` LOW. -/
def isForward (ch : ChannelState) : Prop :=
  ch.plus = true ∧ ch.minus = false

/-- Driving in reverse: `plus` LOW, `minus` HIGH. -/
def isReverse (ch : ChannelState) : Prop :=
  ch.plus = false ∧ ch.minus = true

instance (ch : ChannelState) : Decidable (isStopped ch) := by
  unfold isStopped; infer_instance

instance (ch : ChannelState) : Decidable (isForward ch) := by
  unfold isForward; infer_instance

instance (ch : ChannelState) : Decidable (isReverse ch) := by
  unfold isReverse; infer_instance

/-- Number of lines of a channel whose level differs between two states
(the transitions a pair of consecutive writes causes). -/
def lineTransitions (a b : ChannelState) : Nat :=
  (if a.plus = b.plus then 0 else 1) +
    (if a.minus = b.minus then 0 else 1) +
    (if a.en = b.en then 0 else 1)

/-- Modelled from the spec (for comparison with `strtokAll` only): the
plain split-on-comma tokenizer that keeps empty fields, as a naive
reading of "split the remainder of the line on `,` delimiters" would
produce. -/
def splitOnComma : List Char → List (List Char)
  | [] => [[]]
  | c :: cs =>
    if c = ',' then [] :: splitOnComma cs
    else
      match splitOnComma cs with
      | t :: ts => (c :: t) :: ts
      | [] => [[c]]

/-- The part of `splitOnComma` after the first field: nothing if no comma
remains, otherwise the split of what follows the first comma. -/
def splitTail (cs : List Char) : List (List Char) :=
  match cs.dropWhile (fun d => d ≠ ',') with
  | [] => []
  | _ :: r => splitOnComma r

/-- Modelled from the spec (for the comparison in C7 only): a token is a
well-formed integer when it is an optional sign followed by one or more
digits and nothing else. -/
def isWellFormedInt (t : List Char) : Bool :=
  match t with
  | '-' :: r => r ≠ [] && r.all Char.isDigit
  | '+' :: r => r ≠ [] && r.all Char.isDigit
  | r => r ≠ [] && r.all Char.isDigit

/-- A token has a leading digit when, after `isspace` skipping and an
optional sign, its first character is a digit — exactly when `atoi`
returns a (possibly) nonzero value. -/
def hasLeadingDigit (t : List Char) : Bool :=
  let u := t.dropWhile isCSpace
  let v := if u.head? = some '-' || u.head? = some '+' then u.drop 1 else u
  (v.headD 'x').isDigit

/-! ## Theorems -/

/-- C3.  For every call to `setMotor` with `speed > 0`: if
`direction == 1` the channel's plus line is set HIGH and minus line LOW,
and for every other direction value (including negatives and values
above 1) plus is set LOW and minus HIGH; in both cases the enable line is
driven to `speed` clamped to at most 255 (`min speed 255`, so the PWM
equals `speed` for `0 < speed ≤ 255` and equals 255 for `speed > 255`). -/
theorem c3_positive_speed_drive (d s : Int) (ch : ChannelState)
    (hs : 0 < s) :
    setMotor d s ch =
      if d = 1 then { plus := true, minus := false, en := min s 255 }
      else { plus := false, minus := true, en := min s 255 } := by
  have hns : ¬ s ≤ 0 := by omega
  have hcon : constrain s 0 255 = min s 255 := by
    simp only [constrain]
    omega
  by_cases hd : d = 1 <;> simp [setMotor, hns, hd, hcon]

theorem c3_witness :
    setMotor 1 300 bootChannel =
      (if (1 : Int) = 1 then { plus := true, minus := false, en := min 300 255 }
       else { plus := false, minus := true, en := min 300 255 } : ChannelState) :=
  c3_positive_speed_drive 1 300 bootChannel (by decide)

/-- C4.  For every call to `setMotor` with `speed ≤ 0` and any direction
value whatsoever, both direction lines are driven LOW and the enable line
is driven to 0: the channel is electrically stopped regardless of the
direction argument. -/
theorem c4_nonpositive_speed_stops (d s : Int) (ch : ChannelState)
    (hs : s ≤ 0) :
    setMotor d s ch = { plus := false, minus := false, en := 0 } := by
  simp [setMotor, hs]

theorem c4_witness :
    setMotor 7 (-3) bootChannel = { plus := false, minus := false, en := 0 } :=
  c4_nonpositive_speed_stops 7 (-3) bootChannel (by decide)

/-- C8.  For every input line that, after whitespace trimming, does not
begin with the literal tag `"M,"`, the firmware performs no action at all:
nothing is written to the serial channel and no motor channel state
changes. -/
theorem c8_untagged_line_ignored (raw : List Char) (st : FirmwareState)
    (h : startsWithMComma (arduinoTrim raw) = false) :
    loopStep raw st = (st, []) := by
  simp [loopStep, h]

theorem c8_witness :
    loopStep "hello world".data bootState = (bootState, []) :=
  c8_untagged_line_ignored "hello world".data bootState (by decide)

/-- C9.  `setMotor` is idempotent at `speed ≤ 0`: for every channel and
every direction value, calling `setMotor` a second time with the same
arguments leaves the channel's three lines in exactly the state the first
call produced, with zero line transitions between the two calls. -/
theorem c9_stop_idempotent (d s : Int) (ch : ChannelState) (hs : s ≤ 0) :
    setMotor d s (setMotor d s ch) = setMotor d s ch
    ∧ lineTransitions (setMotor d s ch) (setMotor d s (setMotor d s ch)) = 0 := by
  constructor
  · simp [setMotor, hs]
  · simp [setMotor, hs, lineTransitions]

theorem c9_witness :
    setMotor 1 0 (setMotor 1 0 bootChannel) = setMotor 1 0 bootChannel
    ∧ lineTransitions (setMotor 1 0 bootChannel)
        (setMotor 1 0 (setMotor 1 0 bootChannel)) = 0 :=
  c9_stop_idempotent 1 0 bootChannel (by decide)

/-- C5.  Every channel state reachable after boot initialization and any
sequence of `setMotor` calls with arbitrary arguments is in exactly one of
the three states STOPPED, DRIVING_FORWARD, DRIVING_REVERSE (the count of
the states that hold is exactly 1), and the plus and minus direction lines
are never both HIGH at the same time (`plus && minus` is `false`). -/
theorem c5_reachable_states_exclusive (ch : ChannelState)
    (h : Reachable ch) :
    (if isStopped ch then 1 else 0) + (if isForward ch then 1 else 0)
        + (if isReverse ch then 1 else 0) = 1
    ∧ (ch.plus && ch.minus) = false := by
  induction h with
  | boot =>
    constructor <;> simp [bootChannel, isStopped, isForward, isReverse]
  | step d s ch hr ih =>
    by_cases hs : s ≤ 0
    · constructor <;> simp [setMotor, hs, isStopped, isForward, isReverse]
    · by_cases hd : d = 1
      · constructor <;> simp [setMotor, hs, hd, isStopped, isForward, isReverse]
      · constructor <;> simp [setMotor, hs, hd, isStopped, isForward, isReverse]

theorem c5_witness :
    (if isStopped bootChannel then 1 else 0)
        + (if isForward bootChannel then 1 else 0)
        + (if isReverse bootChannel then 1 else 0) = 1
    ∧ (bootChannel.plus && bootChannel.minus) = false :=
  c5_reachable_states_exclusive bootChannel Reachable.boot

/-- C6.  For every valid 10-token frame, after dispatch the mirrored
vertical channel's output state is identical to the vertical channel's
output state: both are driven from the same (direction, speed) pair at
frame positions 8 and 9. -/
theorem c6_mirrored_equals_vertical (raw : List Char) (st : FirmwareState)
    (htag : startsWithMComma (arduinoTrim raw) = true)
    (hcount : (frameTokens raw).length = 10) :
    (loopStep raw st).1.v2 = (loopStep raw st).1.v := by
  simp only [loopStep, htag, if_true, hcount]
  rfl

theorem c6_witness :
    (loopStep "M,1,200,0,150,1,100,0,50,1,255".data bootState).1.v2
      = (loopStep "M,1,200,0,150,1,100,0,50,1,255".data bootState).1.v :=
  c6_mirrored_equals_vertical "M,1,200,0,150,1,100,0,50,1,255".data bootState
    (by decide) (by decide)

/-- The first element a `dropWhile` leaves in place fails the predicate. -/
theorem dropWhile_head_false (p : Char → Bool) (l : List Char) :
    ∀ d r, l.dropWhile p = d :: r → p d = false := by
  induction l with
  | nil =>
    intro d r h
    simp at h
  | cons c cs ih =>
    intro d r h
    by_cases hc : p c
    · rw [List.dropWhile_cons_of_pos hc] at h
      exact ih d r h
    · rw [List.dropWhile_cons_of_neg hc] at h
      injection h with h1 h2
      subst h1
      simpa using hc

/-- Any fuel at least the length of the list makes `strtokGo` agree with
`strtokAll`. -/
theorem strtokGo_fuel_eq (n : Nat) :
    ∀ cs : List Char, cs.length ≤ n → strtokGo n cs = strtokAll cs := by
  induction n using Nat.strong_induction_on with
  | _ n ih =>
    intro cs hcs
    cases cs with
    | nil => cases n <;> rfl
    | cons c rest =>
      cases n with
      | zero => simp at hcs
      | succ m =>
        have hrest : rest.length ≤ m := by
          simpa [List.length_cons] using hcs
        show strtokGo (m + 1) (c :: rest)
          = strtokGo (rest.length + 1) (c :: rest)
        simp only [strtokGo]
        by_cases hc : c = ','
        · rw [if_pos hc, if_pos hc]
          exact ih m (Nat.lt_succ_self m) rest hrest
        · rw [if_neg hc, if_neg hc]
          congr 1
          have hdw : (rest.dropWhile (fun d => d ≠ ',')).length ≤ rest.length :=
            (List.dropWhile_sublist _).length_le
          rw [ih m (Nat.lt_succ_self m) _ (le_trans hdw hrest)]
          rw [ih rest.length (by omega) _ hdw]

theorem strtokAll_comma (cs : List Char) :
    strtokAll (',' :: cs) = strtokAll cs := by
  show strtokGo (cs.length + 1) (',' :: cs) = strtokAll cs
  simp only [strtokGo]
  rw [if_pos trivial]
  rfl

theorem strtokAll_cons_of_ne (c : Char) (cs : List Char) (hc : c ≠ ',') :
    strtokAll (c :: cs) =
      (c :: cs.takeWhile (fun d => d ≠ ',')) ::
        strtokAll (cs.dropWhile (fun d => d ≠ ',')) := by
  show strtokGo (cs.length + 1) (c :: cs) = _
  simp only [strtokGo]
  rw [if_neg hc]
  congr 1
  exact strtokGo_fuel_eq cs.length _ (List.dropWhile_sublist _).length_le

/-- Structural form of `splitOnComma`: first field, then the tail part. -/
theorem splitOnComma_eq (cs : List Char) :
    splitOnComma cs = cs.takeWhile (fun d => d ≠ ',') :: splitTail cs := by
  induction cs with
  | nil => rfl
  | cons c rest ih =>
    by_cases hc : c = ','
    · subst hc
      simp only [splitOnComma]
      rw [if_pos trivial, List.takeWhile_cons_of_neg (by simp)]
      unfold splitTail
      rw [List.dropWhile_cons_of_neg (by simp)]
    · simp only [splitOnComma]
      rw [if_neg hc, ih, List.takeWhile_cons_of_pos (by simp [hc])]
      unfold splitTail
      rw [List.dropWhile_cons_of_pos (by simp [hc])]

/-- C10.  Implicit: because tokenization uses `strtok`, consecutive `,`
delimiters are collapsed — an empty token between two commas contributes
nothing to the token count, rather than being counted as a 0-valued token
as a plain split-on-comma model would, so the arity check counts only the
non-empty tokens: on every line, the `strtok` token sequence is exactly
the comma-split fields with the empty fields removed. -/
theorem c10_strtok_drops_empty_fields (cs : List Char) :
    strtokAll cs = (splitOnComma cs).filter (fun t => t ≠ []) := by
  suffices h : ∀ (n : Nat) (l : List Char), l.length = n →
      strtokAll l = (splitOnComma l).filter (fun t => t ≠ []) from
    h cs.length cs rfl
  intro n
  induction n using Nat.strong_induction_on with
  | _ n ih =>
    intro cs hn
    cases cs with
    | nil => rfl
    | cons c rest =>
      by_cases hc : c = ','
      · subst hc
        rw [strtokAll_comma]
        have hlt : rest.length < n := by
          simp only [List.length_cons] at hn
          omega
        rw [ih rest.length hlt rest rfl]
        simp only [splitOnComma]
        rw [if_pos trivial, List.filter_cons_of_neg (by simp)]
      · rw [strtokAll_cons_of_ne c rest hc, splitOnComma_eq,
          List.takeWhile_cons_of_pos (by simp [hc]),
          List.filter_cons_of_pos (by simp)]
        congr 1
        unfold splitTail
        rw [List.dropWhile_cons_of_pos (by simp [hc])]
        cases hdw : rest.dropWhile (fun d => d ≠ ',') with
        | nil => rfl
        | cons d r =>
          have hd : d = ',' := by
            have := dropWhile_head_false (fun d => d ≠ ',') rest d r hdw
            simpa using this
          subst hd
          rw [strtokAll_comma]
          have hlen : r.length < n := by
            have hsub : (rest.dropWhile (fun d => d ≠ ',')).length ≤ rest.length :=
              (List.dropWhile_sublist _).length_le
            rw [hdw] at hsub
            simp only [List.length_cons] at hsub hn
            omega
          exact ih r.length hlen r rfl

/-- C1 counterexample.  The claim says a tagged line with 11 tokens after
the tag is flagged invalid, the diagnostic is emitted and no channel
changes.  On the code the loop stops consuming at `idx == 10`, never sees
the 11th token, and accepts the frame: no diagnostic is emitted and the
channels change. -/
theorem c1_counterexample :
    (frameTokens "M,1,2,3,4,5,6,7,8,9,10,11".data).length = 11
    ∧ (loopStep "M,1,2,3,4,5,6,7,8,9,10,11".data bootState).2 = []
    ∧ (loopStep "M,1,2,3,4,5,6,7,8,9,10,11".data bootState).1 ≠ bootState := by
  decide

/-- C1 amended.  For every input line tagged `"M,"` that contains more
than 10 integer tokens after the tag, the frame is accepted as valid: the
loop consumes only the first 10 tokens (the arity counter `idx` stops at
10 and never reflects the extra tokens), no error diagnostic is emitted,
and the channels are driven from those first 10 values. -/
theorem c1_extra_tokens_accepted (raw : List Char) (st : FirmwareState)
    (htag : startsWithMComma (arduinoTrim raw) = true)
    (hcount : 10 < (frameTokens raw).length) :
    loopStep raw st = (dispatch (frameValues raw) st, []) := by
  have hmin : min (frameTokens raw).length 10 = 10 := by omega
  simp [loopStep, htag, hmin]

theorem c1_witness :
    loopStep "M,1,2,3,4,5,6,7,8,9,10,11".data bootState
      = (dispatch (frameValues "M,1,2,3,4,5,6,7,8,9,10,11".data) bootState, []) :=
  c1_extra_tokens_accepted "M,1,2,3,4,5,6,7,8,9,10,11".data bootState
    (by decide) (by decide)

/-- C2 counterexample.  The claim quantifies over every tagged line whose
token count after the tag is not equal to 10; on a line with 11 tokens the
code emits no diagnostic and changes the channel states, so the claim
fails for counts above 10. -/
theorem c2_counterexample :
    (frameTokens "M,1,60,1,60,1,60,1,60,1,60,9".data).length ≠ 10
    ∧ (loopStep "M,1,60,1,60,1,60,1,60,1,60,9".data bootState).2 ≠ [errorText]
    ∧ (loopStep "M,1,60,1,60,1,60,1,60,1,60,9".data bootState).1 ≠ bootState := by
  decide

/-- C2 amended.  For every input line tagged `"M,"` whose token count
after the tag is fewer than 10 (including zero tokens for the line
`"M,"`), processing the line emits exactly the diagnostic line
`"Error: Invalid M command format"` on the serial channel and leaves every
motor channel's three output lines unchanged — no partial application. -/
theorem c2_too_few_tokens_rejected (raw : List Char) (st : FirmwareState)
    (htag : startsWithMComma (arduinoTrim raw) = true)
    (hcount : (frameTokens raw).length < 10) :
    loopStep raw st = (st, [errorText]) := by
  have hmin : min (frameTokens raw).length 10 ≠ 10 := by omega
  simp [loopStep, htag, hmin]

theorem c2_witness :
    loopStep "M,1,200,0,150".data bootState = (bootState, [errorText]) :=
  c2_too_few_tokens_rejected "M,1,200,0,150".data bootState
    (by decide) (by decide)

/-- A list whose first element (if any) is not a digit folds to 0 under
`digitsVal`. -/
theorem digitsVal_of_no_digit (v : List Char)
    (h : (v.headD 'x').isDigit = false) : digitsVal v 0 = 0 := by
  cases v with
  | nil => rfl
  | cons c tl =>
    simp only [List.headD_cons] at h
    simp [digitsVal, h]

/-- C7 counterexample.  The claim says a token that is not a well-formed
integer contributes the value 0 to the frame.  The token `"12ab"` is not a
well-formed integer, yet `atoi` reads its leading digit run and the frame
receives the value 12, not 0. -/
theorem c7_counterexample :
    isWellFormedInt "12ab".data = false
    ∧ "12ab".data ∈ frameTokens "M,12ab,0,0,0,0,0,0,0,0,0".data
    ∧ frameValues "M,12ab,0,0,0,0,0,0,0,0,0".data
        = [12, 0, 0, 0, 0, 0, 0, 0, 0, 0] := by
  decide

/-- C7 amended.  Parsing never crashes and never aborts the frame on a
malformed token: a tagged line with 10 tokens is dispatched no matter what
the tokens contain, every token counted toward the arity, each
contributing its `atoi` value (the value of its longest leading integer
prefix after optional whitespace and a sign).  A token with no leading
digit contributes exactly 0; a token such as `"12ab"` contributes its
numeric prefix 12 rather than 0 (see the counterexample). -/
theorem c7_malformed_tokens_tolerated (raw : List Char) (st : FirmwareState)
    (t : List Char)
    (htag : startsWithMComma (arduinoTrim raw) = true)
    (hlen : (frameTokens raw).length = 10)
    (_htok : t ∈ frameTokens raw)
    (hnd : hasLeadingDigit t = false) :
    loopStep raw st = (dispatch (frameValues raw) st, [])
    ∧ atoiChars t = 0 := by
  constructor
  · have hmin : min (frameTokens raw).length 10 = 10 := by omega
    simp [loopStep, htag, hmin]
  · unfold hasLeadingDigit at hnd
    unfold atoiChars
    by_cases h1 : (t.dropWhile isCSpace).head? = some '-'
    · rw [if_pos h1]
      have hv : (((t.dropWhile isCSpace).drop 1).headD 'x').isDigit = false := by
        simpa [h1] using hnd
      rw [digitsVal_of_no_digit _ hv]
      rfl
    · by_cases h2 : (t.dropWhile isCSpace).head? = some '+'
      · rw [if_neg h1, if_pos h2]
        have hv : (((t.dropWhile isCSpace).drop 1).headD 'x').isDigit = false := by
          simpa [h1, h2] using hnd
        rw [digitsVal_of_no_digit _ hv]
        rfl
      · rw [if_neg h1, if_neg h2]
        have hv : ((t.dropWhile isCSpace).headD 'x').isDigit = false := by
          simpa [h1, h2] using hnd
        rw [digitsVal_of_no_digit _ hv]
        rfl

theorem c7_witness :
    loopStep "M,ab,0,0,0,0,0,0,0,0,0".data bootState
      = (dispatch (frameValues "M,ab,0,0,0,0,0,0,0,0,0".data) bootState, [])
    ∧ atoiChars "ab".data = 0 :=
  c7_malformed_tokens_tolerated "M,ab,0,0,0,0,0,0,0,0,0".data bootState
    "ab".data (by decide) (by decide) (by decide) (by decide)

end MotorController
